import Mathlib

/-!
Shallow embedding of the squirrel SQL-builder core (part.go, insert.go,
select.go) and proofs about the claims of its specification.

Go panics and error returns are both modelled as `Except.error`; writing
to a `bytes.Buffer` (which never fails) is modelled as pure string
accumulation.  `interface{}` argument values are modelled by the small
closed type `Arg`.
-/

set_option autoImplicit false

namespace Squirrel

/-- Bound-argument values (`interface{}` payloads carried alongside SQL text). -/
inductive Arg : Type where
  | int (n : Int)
  | str (s : String)
  | null
deriving DecidableEq, Repr

mutual

/-- The `pred interface{}` field of `part`: the dynamic value is classified by
`part.ToSql` into nil / `Sqlizer` / string; any other dynamic type is kept
abstractly as its type name (used in the panic message). -/
inductive Pred : Type where
  | nil : Pred
  | sqlizer : Sqlizer → Pred
  | str : String → Pred
  | other : String → Pred

/-- A fragment implementing `ToSql`.  `raw` is the `expr` fragment (literal
SQL text plus fixed args; its Go definition lives outside part.go, modelled
from the spec: a raw fragment renders to its own text and argument list).
`pt` is the `part` struct of part.go: a wrapped predicate with trailing args. -/
inductive Sqlizer : Type where
  | raw : String → List Arg → Sqlizer
  | pt : Pred → List Arg → Sqlizer

end

mutual

/-- Render a fragment: `raw` returns its text/args verbatim; `pt` dispatches
per `part.ToSql` of part.go. -/
def Sqlizer.ToSql : Sqlizer → Except String (String × List Arg)
  | .raw s a => .ok (s, a)
  | .pt p a => predToSql p a

/-- The body of `part.ToSql` (part.go): switch on the dynamic type of `pred`.
nil is a no-op; a `Sqlizer` delegates (discarding the part's own args); a
string renders as itself with the part's trailing args; anything else panics
with "expected string or Sqlizer, not %T". -/
def predToSql : Pred → List Arg → Except String (String × List Arg)
  | .nil, _ => .ok ("", [])
  | .sqlizer s, _ => Sqlizer.ToSql s
  | .str s, args => .ok (s, args)
  | .other t, _ => .error ("expected string or Sqlizer, not " ++ t)

end

/-- `part.ToSql` of part.go, on the classified predicate plus trailing args. -/
def part.ToSql (pred : Pred) (args : List Arg) : Except String (String × List Arg) :=
  Sqlizer.ToSql (.pt pred args)

/-- `strings.Join` (Go stdlib): elements joined with `sep` between them. -/
def joinSep : List String → String → String
  | [], _ => ""
  | [s], _ => s
  | s :: rest, sep => s ++ sep ++ joinSep rest sep

/-- Loop body of `appendToSql` (part.go): `i` is the index of the first
element of the remaining list, `n` the length of the whole list.  A part
whose rendered text is empty is skipped entirely (its args included); after a
non-empty part's text the separator is written whenever `i < n-1`. -/
def appendToSqlAux : List Sqlizer → Nat → Nat → String → String → List Arg →
    Except String (String × List Arg)
  | [], _, _, acc, _, args => .ok (acc, args)
  | p :: rest, i, n, acc, sep, args =>
    match Sqlizer.ToSql p with
    | .error e => .error e
    | .ok (partSql, partArgs) =>
      if partSql.length = 0 then
        appendToSqlAux rest (i + 1) n acc sep args
      else
        appendToSqlAux rest (i + 1) n
          (acc ++ partSql ++ (if i < n - 1 then sep else "")) sep (args ++ partArgs)

/-- `appendToSql` of part.go, accumulating into the buffer contents `acc`. -/
def appendToSql (parts : List Sqlizer) (acc sep : String) (args : List Arg) :
    Except String (String × List Arg) :=
  appendToSqlAux parts 0 parts.length acc sep args

/-- Rendered text of a fragment (empty on error), used to state properties of
the sequencer. -/
def renderText (p : Sqlizer) : String :=
  match Sqlizer.ToSql p with
  | .ok (s, _) => s
  | .error _ => ""

/-- Rendered argument list of a fragment (empty on error). -/
def renderArgList (p : Sqlizer) : List Arg :=
  match Sqlizer.ToSql p with
  | .ok (_, a) => a
  | .error _ => []

/-- The arguments the sequencer keeps: those of children whose rendered text
is non-empty, in original order. -/
def seqKeptArgs (ps : List Sqlizer) : List Arg :=
  ps.flatMap fun p => if (renderText p).length = 0 then [] else renderArgList p

/-- The text the sequencer produces for the sublist starting at index `i` of a
list of total length `n`: each non-empty child contributes its text, followed
by the separator when its index is below `n - 1`. -/
def seqText : List Sqlizer → Nat → Nat → String → String
  | [], _, _, _ => ""
  | p :: rest, i, n, sep =>
    (if (renderText p).length = 0 then ""
     else renderText p ++ (if i < n - 1 then sep else "")) ++ seqText rest (i + 1) n sep

theorem appendToSqlAux_eq (ps : List Sqlizer) :
    ∀ (i n : Nat) (acc sep : String) (args : List Arg),
    (∀ p ∈ ps, (Sqlizer.ToSql p).isOk = true) →
    appendToSqlAux ps i n acc sep args = .ok (acc ++ seqText ps i n sep, args ++ seqKeptArgs ps) := by
  induction ps with
  | nil =>
    intro i n acc sep args _
    simp [appendToSqlAux, seqText, seqKeptArgs]
  | cons p rest ih =>
    intro i n acc sep args hok
    have hp : (Sqlizer.ToSql p).isOk = true := hok p (List.mem_cons_self p rest)
    have hrest : ∀ q ∈ rest, (Sqlizer.ToSql q).isOk = true := fun q hq =>
      hok q (List.mem_cons_of_mem p hq)
    obtain ⟨s, a, hsa⟩ : ∃ s a, Sqlizer.ToSql p = .ok (s, a) := by
      cases h : Sqlizer.ToSql p with
      | ok v => obtain ⟨s, a⟩ := v; exact ⟨s, a, rfl⟩
      | error e => rw [h] at hp; simp [Except.isOk, Except.toBool] at hp
    have htext : renderText p = s := by simp [renderText, hsa]
    have hargsl : renderArgList p = a := by simp [renderArgList, hsa]
    simp only [appendToSqlAux, hsa]
    by_cases hs : s.length = 0
    · rw [if_pos hs, ih (i + 1) n acc sep args hrest]
      simp [seqText, seqKeptArgs, htext, hargsl, hs]
    · rw [if_neg hs, ih (i + 1) n _ sep _ hrest]
      simp [seqText, seqKeptArgs, htext, hargsl, hs, String.append_assoc, List.append_assoc]

theorem joinSep_cons_ne (s : String) (l : List String) (sep : String) (h : l ≠ []) :
    joinSep (s :: l) sep = s ++ sep ++ joinSep l sep := by
  cases l with
  | nil => exact absurd rfl h
  | cons x xs => rfl

theorem seqText_concat_last (p : Sqlizer) (sep : String) (hp : ¬(renderText p).length = 0) :
    ∀ (rest : List Sqlizer) (i n : Nat), n = i + rest.length + 1 →
    seqText (rest ++ [p]) i n sep
      = joinSep (((rest ++ [p]).map renderText).filter (fun s => !(s.length == 0))) sep := by
  have hpb : ((renderText p).length == 0) = false := beq_eq_false_iff_ne.mpr hp
  intro rest
  induction rest with
  | nil =>
    intro i n hn
    simp only [List.length_nil] at hn
    have hnlt : ¬ i < n - 1 := by omega
    simp [seqText, joinSep, hp, hpb, hnlt]
  | cons q rest ih =>
    intro i n hn
    have hlt : i < n - 1 := by simp at hn; omega
    have ihx := ih (i + 1) n (by simp at hn ⊢; omega)
    have hfr : (((rest ++ [p]).map renderText).filter (fun s => !(s.length == 0))) ≠ [] := by
      simp [List.map_append, List.filter_append, List.filter_cons, hpb]
    have step : seqText ((q :: rest) ++ [p]) i n sep
        = (if (renderText q).length = 0 then "" else renderText q ++ sep)
          ++ seqText (rest ++ [p]) (i + 1) n sep := by
      simp [seqText, hlt]
    by_cases hq : (renderText q).length = 0
    · have hqb : ((renderText q).length == 0) = true := beq_iff_eq.mpr hq
      rw [step, if_pos hq, ihx]
      simp [List.filter_cons, hqb]
    · have hqb : ((renderText q).length == 0) = false := beq_eq_false_iff_ne.mpr hq
      rw [step, if_neg hq, ihx]
      have hcons : (((q :: rest) ++ [p]).map renderText).filter (fun s => !(s.length == 0))
          = renderText q :: ((rest ++ [p]).map renderText).filter (fun s => !(s.length == 0)) := by
        simp [List.filter_cons, hqb]
      rw [hcons, joinSep_cons_ne _ _ _ hfr]

/-- Modelled from the spec: the placeholder-format strategy (placeholder.go is
not part of the given source).  Per §3/§4.4 it is an enum of no-op
(`question`) and sequentially numbered (`dollar`) rewriting. -/
inductive PlaceholderFormat : Type where
  | question
  | dollar
deriving DecidableEq, Repr

/-- Modelled from the spec (§4.4): replace each occurrence of the neutral
marker with a sequentially numbered marker, counting from `k`. -/
def dollarize : List Char → Nat → String
  | [], _ => ""
  | c :: rest, k =>
    if c = '?' then "$" ++ toString k ++ dollarize rest (k + 1)
    else String.singleton c ++ dollarize rest k

/-- Modelled from the spec (§4.4): the rewriter scans the finished text once;
`question` leaves it unchanged, `dollar` numbers the markers from 1. -/
def PlaceholderFormat.ReplacePlaceholders : PlaceholderFormat → String → Except String String
  | .question, s => .ok s
  | .dollar, s => .ok (dollarize s.data 1)

/-- An `expr` as stored in the `exprs` fields (Prefixes/Suffixes): literal
SQL text plus its argument list.  Modelled from the spec (§3 raw variant;
expr.go is not part of the given source). -/
def Exprs : Type := List (String × List Arg)

/-- Modelled from the spec: the text side of `exprs.AppendToSql` — the
expressions' texts joined by `sep`. -/
def exprsText (es : Exprs) (sep : String) : String :=
  joinSep (es.map Prod.fst) sep

/-- Modelled from the spec: the argument side of `exprs.AppendToSql` — all
expressions' arguments concatenated in order. -/
def exprsArgs (es : Exprs) : List Arg :=
  es.flatMap Prod.snd

/-- The `selectData` snapshot (select.go), field for field. -/
structure selectData : Type where
  PlaceholderFormat : PlaceholderFormat
  Prefixes : Exprs
  Options : List String
  Columns : List Sqlizer
  From : Option Sqlizer
  Joins : List Sqlizer
  WhereParts : List Sqlizer
  GroupBys : List String
  HavingParts : List Sqlizer
  OrderBys : List String
  Limit : String
  Offset : String
  Suffixes : Exprs

/-- The WHERE block of `selectData.ToSql` (select.go): when the slot is
non-empty, the first part is rendered once; a single part whose text is empty
is filtered (the source comments that `Condition()` adds one empty datum),
otherwise " WHERE " is written followed by the parts sequenced with " AND ". -/
def whereStep (wp : List Sqlizer) (acc : String × List Arg) :
    Except String (String × List Arg) :=
  match wp with
  | [] => .ok acc
  | p :: ps =>
    match Sqlizer.ToSql p with
    | .error e => .error e
    | .ok (partSql, _) =>
      if ps.length = 0 ∧ partSql.length = 0 then .ok acc
      else appendToSql (p :: ps) (acc.1 ++ " WHERE ") " AND " acc.2

/-- The prefix block shared by both assemblers: when `Prefixes` is non-empty,
its expressions are written joined by " ", followed by a space. -/
def prefixAcc (ps : Exprs) : String × List Arg :=
  if ps.length > 0 then (exprsText ps " " ++ " ", exprsArgs ps) else ("", [])

/-- `selectData.ToSql` (select.go): panics without at least one result
column, then writes prefixes, SELECT, options, columns, FROM, joins,
the WHERE block, GROUP BY, HAVING, ORDER BY, LIMIT, OFFSET, suffixes, and
finally runs the placeholder rewriter over the finished text. -/
def selectData.ToSql (d : selectData) : Except String (String × List Arg) :=
  if d.Columns.length = 0 then
    .error "select statements must have at least one result column"
  else
    let a0 := prefixAcc d.Prefixes
    let a1 := (a0.1 ++ "SELECT "
      ++ (if d.Options.length > 0 then joinSep d.Options " " ++ " " else ""), a0.2)
    Except.bind (if d.Columns.length > 0 then appendToSql d.Columns a1.1 ", " a1.2
                 else .ok a1) (fun a2 =>
    Except.bind (match d.From with
                 | some f => appendToSql [f] (a2.1 ++ " FROM ") "" a2.2
                 | none => .ok a2) (fun a3 =>
    Except.bind (if d.Joins.length > 0 then appendToSql d.Joins (a3.1 ++ " ") " " a3.2
                 else .ok a3) (fun a4 =>
    Except.bind (whereStep d.WhereParts a4) (fun a5 =>
    let a6 := if d.GroupBys.length > 0 then
        (a5.1 ++ " GROUP BY " ++ joinSep d.GroupBys ", ", a5.2) else a5
    Except.bind (if d.HavingParts.length > 0 then
                   appendToSql d.HavingParts (a6.1 ++ " HAVING ") " AND " a6.2
                 else .ok a6) (fun a7 =>
    let a8 := if d.OrderBys.length > 0 then
        (a7.1 ++ " ORDER BY " ++ joinSep d.OrderBys ", ", a7.2) else a7
    let a9 := if d.Limit.length > 0 then (a8.1 ++ " LIMIT " ++ d.Limit, a8.2) else a8
    let a10 := if d.Offset.length > 0 then (a9.1 ++ " OFFSET " ++ d.Offset, a9.2) else a9
    let a11 := if d.Suffixes.length > 0 then
        (a10.1 ++ " " ++ exprsText d.Suffixes " ", a10.2 ++ exprsArgs d.Suffixes) else a10
    Except.bind (PlaceholderFormat.ReplacePlaceholders d.PlaceholderFormat a11.1) (fun f =>
    .ok (f, a11.2)))))))

/-- State-passing embedding of the pointer-receiver method
`(d *selectData) ToSql`: the source writes no field of its receiver, so the
post-state is the receiver itself. -/
def selectData.ToSqlS (d : selectData) :
    Except String (String × List Arg) × selectData :=
  (selectData.ToSql d, d)

/-- A value of an insert row (`[]interface{}` entries in `insertData.Values`):
either an `expr` (dynamic type test `val.(expr)` in insert.go) carrying its
own SQL text and args, or a plain value. -/
inductive Val : Type where
  | ex (sql : String) (args : List Arg)
  | plain (a : Arg)
deriving DecidableEq, Repr

/-- The inner loop of `appendValuesToSQL` (insert.go): collect one value
string per row entry while appending args — an `expr` contributes its own SQL
text and its args, any other value contributes "?" and itself as argument. -/
def rowStrings : List Val → List Arg → List String × List Arg
  | [], args => ([], args)
  | v :: rest, args =>
    let (s, args1) :=
      match v with
      | .ex es ea => (es, args ++ ea)
      | .plain a => ("?", args ++ [a])
    let (ss, args2) := rowStrings rest args1
    (s :: ss, args2)

/-- The outer loop of `appendValuesToSQL` (insert.go): one parenthesized,
comma-joined group per row, threading the argument accumulator. -/
def valuesStrings : List (List Val) → List Arg → List String × List Arg
  | [], args => ([], args)
  | row :: rest, args =>
    let (ss, args1) := rowStrings row args
    let (rs, args2) := valuesStrings rest args1
    (("(" ++ joinSep ss "," ++ ")") :: rs, args2)

/-- `insertData.appendValuesToSQL` (insert.go): errors when no values are
set, otherwise writes "VALUES " followed by the rows joined by ",". -/
def appendValuesToSQL (values : List (List Val)) (acc : String) (args : List Arg) :
    Except String (String × List Arg) :=
  if values.length = 0 then .error "values for insert statements are not set"
  else
    let (rs, args1) := valuesStrings values args
    .ok (acc ++ "VALUES " ++ joinSep rs ",", args1)

/-- The `insertData` snapshot (insert.go), field for field (`Select` holds
the sub-select's snapshot; `builder.GetStruct` is the identity here). -/
structure insertData : Type where
  PlaceholderFormat : PlaceholderFormat
  Prefixes : Exprs
  Options : List String
  Into : String
  Columns : List String
  Values : List (List Val)
  Suffixes : Exprs
  Select : Option selectData

/-- `insertData.appendSelectToSQL` (insert.go) on a present sub-select: the
sub-select's render is written and its args appended; a panic inside the
sub-select's render propagates. -/
def appendSelectToSQL (sb : selectData) (acc : String) (args : List Arg) :
    Except String (String × List Arg) :=
  match selectData.ToSql sb with
  | .error e => .error e
  | .ok (s, sa) => .ok (acc ++ s, args ++ sa)

/-- The text written by `insertData.ToSql` up to and including the column
list: prefixes, "INSERT ", options, "INTO <table> ", and "(c1,c2) " when
columns are present. -/
def insertHead (d : insertData) : String :=
  (prefixAcc d.Prefixes).1 ++ "INSERT "
    ++ (if d.Options.length > 0 then joinSep d.Options " " ++ " " else "")
    ++ "INTO " ++ d.Into ++ " "
    ++ (if d.Columns.length > 0 then "(" ++ joinSep d.Columns "," ++ ") " else "")

/-- The tail of `insertData.ToSql`, shared by both payload paths: suffixes,
then the placeholder rewriter over the finished text. -/
def insertFinish (d : insertData) (a : String × List Arg) :
    Except String (String × List Arg) :=
  let a1 := if d.Suffixes.length > 0 then
      (a.1 ++ " " ++ exprsText d.Suffixes " ", a.2 ++ exprsArgs d.Suffixes) else a
  Except.bind (PlaceholderFormat.ReplacePlaceholders d.PlaceholderFormat a1.1) (fun f =>
    .ok (f, a1.2))

/-- `insertData.ToSql` (insert.go): panics without a target table, panics
when neither values nor a sub-select are set; a configured sub-select takes
the select path, otherwise the values path is taken.  On the (unreachable)
values-path error the Go function returns its named results as they stand:
empty SQL and the arguments accumulated so far. -/
def insertData.ToSql (d : insertData) : Except String (String × List Arg) :=
  if d.Into.length = 0 then
    .error "insert statements must specify a table"
  else if d.Values.length = 0 ∧ d.Select.isNone = true then
    .error "insert statements must have at least one set of values or select clause"
  else
    let a0 := (insertHead d, (prefixAcc d.Prefixes).2)
    match d.Select with
    | some sb =>
      match appendSelectToSQL sb a0.1 a0.2 with
      | .error e => .error e
      | .ok a1 => insertFinish d a1
    | none =>
      match appendValuesToSQL d.Values a0.1 a0.2 with
      | .error _ => .ok ("", a0.2)
      | .ok a1 => insertFinish d a1

/-- State-passing embedding of the pointer-receiver method
`(d *insertData) ToSql`: the source writes no field of its receiver. -/
def insertData.ToSqlS (d : insertData) :
    Except String (String × List Arg) × insertData :=
  (insertData.ToSql d, d)

/-- Modelled from the spec (§4.1): `newWherePart` (where.go is not part of
the given source) wraps a caller-supplied predicate and its trailing args
into a fragment obeying the wrapping rule — the same classification that
`part.ToSql` performs. -/
def newWherePart (pred : Pred) (args : List Arg) : Sqlizer :=
  Sqlizer.pt pred args

/-- `SelectBuilder.Where` (select.go): `builder.Append b "WhereParts"
(newWherePart pred args)`.  The lann/builder property store is an external
dependency; per the spec (§3, §6) `Append` yields a new snapshot with one
fragment added to the named field, sharing every other field. -/
def SelectBuilder.Where (b : selectData) (pred : Pred) (args : List Arg) : selectData :=
  { b with WhereParts := b.WhereParts ++ [newWherePart pred args] }

/-- `InsertBuilder.Into` (insert.go): `builder.Set b "Into" from` — a new
snapshot with the `Into` field replaced wholesale. -/
def InsertBuilder.Into (b : insertData) (table : String) : insertData :=
  { b with Into := table }

/-! Helper lemmas shared by the claim theorems. -/

theorem string_length_zero_iff (s : String) : s.length = 0 ↔ s = "" := by
  cases s with
  | mk data =>
    constructor
    · intro h
      have hd : data = [] := List.length_eq_zero.mp h
      subst hd; rfl
    · intro h
      have hd : data = [] := congrArg String.data h
      simp [hd]

theorem whereStep_nil (acc : String × List Arg) : whereStep [] acc = .ok acc := rfl

theorem whereStep_single_empty (p : Sqlizer) (a : List Arg)
    (hp : Sqlizer.ToSql p = .ok ("", a)) (acc : String × List Arg) :
    whereStep [p] acc = .ok acc := by
  simp [whereStep, hp]

/-- A shared concrete SELECT snapshot (question format, single column "a"). -/
def selQ : selectData :=
  { PlaceholderFormat := .question, Prefixes := [], Options := [],
    Columns := [Sqlizer.raw "a" []], From := none, Joins := [],
    WhereParts := [], GroupBys := [], HavingParts := [],
    OrderBys := [], Limit := "", Offset := "", Suffixes := [] }

/-- A shared concrete INSERT snapshot (table "users", one values row). -/
def insQ : insertData :=
  { PlaceholderFormat := .question, Prefixes := [], Options := [],
    Into := "users", Columns := [], Values := [[Val.plain (Arg.int 1)]],
    Suffixes := [], Select := none }

/-! The claim theorems. -/

/-- C1 (amended): when the WHERE slot holds exactly one predicate and that
predicate renders to empty text, the SELECT renders identically to the same
snapshot with an empty WHERE slot — in particular with no WHERE keyword.
(As originally stated — for any number of empty predicates — the claim is
false; see the counterexample.) -/
theorem where_single_empty_suppresses_keyword (d : selectData) (p : Sqlizer) (a : List Arg)
    (hw : d.WhereParts = [p]) (hp : Sqlizer.ToSql p = .ok ("", a)) :
    selectData.ToSql d = selectData.ToSql { d with WhereParts := [] } := by
  have hws : ∀ acc, whereStep [p] acc = .ok acc := whereStep_single_empty p a hp
  obtain ⟨pf, pre, opts, cols, frm, jns, wps, gbs, hvs, obs, lim, off, sufs⟩ := d
  simp only at hw
  subst hw
  simp only [selectData.ToSql, hws, whereStep_nil]

/-- C1 witness: a snapshot whose WHERE slot is one empty-string predicate
renders exactly like the snapshot without it. -/
theorem where_single_empty_suppresses_keyword_witness :
    selectData.ToSql { selQ with WhereParts := [Sqlizer.pt (Pred.str "") []] }
      = selectData.ToSql selQ :=
  where_single_empty_suppresses_keyword _ _ [] rfl rfl

/-- C1 counterexample: with TWO predicates that both render to empty text,
the output still contains the WHERE keyword ("SELECT a WHERE "), refuting
the claim as stated. -/
theorem where_two_empty_parts_emit_keyword_cex :
    Sqlizer.ToSql (Sqlizer.pt (Pred.str "") []) = .ok ("", [])
    ∧ selectData.ToSql
        { selQ with WhereParts := [Sqlizer.pt (Pred.str "") [], Sqlizer.pt (Pred.str "") []] }
      = .ok ("SELECT a WHERE ", [])
    ∧ "WHERE".data <:+: ("SELECT a WHERE ").data :=
  ⟨rfl, rfl, by decide⟩

/-- C2: deriving a builder (Where on a SELECT, Into on an INSERT) produces a
snapshot that differs from the receiver only in the targeted field — putting
the receiver's field back yields the receiver itself, whose render output is
therefore unchanged by the derivation. -/
theorem builder_derivation_immutable (b : selectData) (p : Pred) (a : List Arg)
    (ib : insertData) (t : String) :
    { SelectBuilder.Where b p a with WhereParts := b.WhereParts } = b
    ∧ (SelectBuilder.Where b p a).WhereParts = b.WhereParts ++ [newWherePart p a]
    ∧ selectData.ToSql { SelectBuilder.Where b p a with WhereParts := b.WhereParts }
        = selectData.ToSql b
    ∧ { InsertBuilder.Into ib t with Into := ib.Into } = ib
    ∧ (InsertBuilder.Into ib t).Into = t
    ∧ insertData.ToSql { InsertBuilder.Into ib t with Into := ib.Into }
        = insertData.ToSql ib := by
  obtain ⟨pf, pre, opts, cols, frm, jns, wps, gbs, hvs, obs, lim, off, sufs⟩ := b
  obtain ⟨ipf, ipre, iopts, iinto, icols, ivals, isufs, isel⟩ := ib
  exact ⟨rfl, rfl, rfl, rfl, rfl, rfl⟩

/-- C3: rendering is a pure function of the snapshot — in the state-passing
embedding of the pointer-receiver methods, the post-state equals the
receiver, and rendering the post-state again yields the identical
(sql, args) result. -/
theorem render_deterministic_and_pure (d : selectData) (di : insertData) :
    (selectData.ToSqlS d).2 = d
    ∧ (selectData.ToSqlS ((selectData.ToSqlS d).2)).1 = (selectData.ToSqlS d).1
    ∧ (insertData.ToSqlS di).2 = di
    ∧ (insertData.ToSqlS ((insertData.ToSqlS di).2)).1 = (insertData.ToSqlS di).1 :=
  ⟨rfl, rfl, rfl, rfl⟩

/-- C4 (amended): the sequencer writes the separator immediately after every
non-empty child that is not in the final list position; hence whenever the
final child renders non-empty, the output is exactly the non-empty children's
texts joined pairwise by single separators, with no leading or trailing
separator.  (As originally stated the claim is false: a non-empty child
followed only by empty children IS followed by a trailing separator — see the
counterexample.) -/
theorem sequencer_separator_exact_between_nonempty (rest : List Sqlizer) (p : Sqlizer)
    (acc sep : String) (args : List Arg)
    (hok : ∀ q ∈ rest ++ [p], (Sqlizer.ToSql q).isOk = true)
    (hlast : ¬(renderText p).length = 0) :
    appendToSql (rest ++ [p]) acc sep args
      = .ok (acc ++ joinSep (((rest ++ [p]).map renderText).filter (fun s => !(s.length == 0))) sep,
             args ++ seqKeptArgs (rest ++ [p])) := by
  rw [appendToSql, appendToSqlAux_eq (rest ++ [p]) 0 (rest ++ [p]).length acc sep args hok,
    seqText_concat_last p sep hlast rest 0 (rest ++ [p]).length (by simp)]

/-- C4 witness: children ["a", "", "b"] with separator ", " render to
"a, b" — one separator between the two non-empty children, none trailing. -/
theorem sequencer_separator_exact_between_nonempty_witness :
    appendToSql ([Sqlizer.raw "a" [], Sqlizer.raw "" []] ++ [Sqlizer.raw "b" [Arg.int 1]])
      "" ", " [] = .ok ("a, b", [Arg.int 1]) := by
  have h := sequencer_separator_exact_between_nonempty [Sqlizer.raw "a" [], Sqlizer.raw "" []]
    (Sqlizer.raw "b" [Arg.int 1]) "" ", " [] (by decide) (by decide)
  exact h.trans (by rfl)

/-- C4 counterexample: a non-empty child followed only by an empty child
yields "a, " — a trailing separator, contradicting the claim as stated
(which would require output "a"). -/
theorem sequencer_trailing_separator_cex :
    appendToSql [Sqlizer.raw "a" [], Sqlizer.raw "" []] "" ", " [] = .ok ("a, ", [])
    ∧ Sqlizer.ToSql (Sqlizer.raw "" []) = .ok ("", [])
    ∧ ("a, " : String) ≠ "a" :=
  ⟨rfl, rfl, by decide⟩

/-- C5 (amended): the sequencer's output argument list is the input arguments
followed by the concatenation, in original child order, of the arguments of
exactly those children whose rendered text is non-empty; arguments of
children rendering empty text are dropped with the child.  (As originally
stated — including empty children's arguments — the claim is false; see the
counterexample.) -/
theorem sequencer_keeps_only_nonempty_children_args (parts : List Sqlizer)
    (acc sep : String) (args : List Arg)
    (hok : ∀ q ∈ parts, (Sqlizer.ToSql q).isOk = true) :
    ∃ t, appendToSql parts acc sep args = .ok (t, args ++ seqKeptArgs parts) :=
  ⟨acc ++ seqText parts 0 parts.length sep,
   appendToSqlAux_eq parts 0 parts.length acc sep args hok⟩

/-- C5 witness: children with args [7], [], [1] (middle child rendering
empty) produce the argument list [7, 1] in order. -/
theorem sequencer_keeps_only_nonempty_children_args_witness :
    ∃ t, appendToSql
        [Sqlizer.raw "a" [Arg.int 7], Sqlizer.pt (Pred.str "") [], Sqlizer.raw "b" [Arg.int 1]]
        "" ", " [] = .ok (t, [Arg.int 7, Arg.int 1]) := by
  have h := sequencer_keeps_only_nonempty_children_args
    [Sqlizer.raw "a" [Arg.int 7], Sqlizer.pt (Pred.str "") [], Sqlizer.raw "b" [Arg.int 1]]
    "" ", " [] (by decide)
  obtain ⟨t, ht⟩ := h
  exact ⟨t, ht.trans (by rfl)⟩

/-- C5 counterexample: a child rendering to empty text but carrying argument
[1] contributes nothing — the output argument list is [], not [1] as the
claim as stated requires. -/
theorem sequencer_drops_empty_child_args_cex :
    Sqlizer.ToSql (Sqlizer.pt (Pred.str "") [Arg.int 1]) = .ok ("", [Arg.int 1])
    ∧ appendToSql [Sqlizer.pt (Pred.str "") [Arg.int 1]] "" ", " [] = .ok ("", [])
    ∧ ([] : List Arg) ≠ [Arg.int 1] :=
  ⟨rfl, rfl, by decide⟩

/-- C6: rendering a SELECT snapshot with zero result columns fails
immediately with the no-result-columns error, producing no SQL. -/
theorem select_no_columns_errors (d : selectData) (h : d.Columns = []) :
    selectData.ToSql d = .error "select statements must have at least one result column" := by
  simp [selectData.ToSql, h]

/-- C6 witness: the concrete zero-column snapshot errors as stated. -/
theorem select_no_columns_errors_witness :
    selectData.ToSql { selQ with Columns := [] }
      = .error "select statements must have at least one result column" :=
  select_no_columns_errors _ rfl

/-- C7: an INSERT without a target table fails with the missing-target error;
one with a target but neither values nor a sub-select fails with the
missing-payload error.  Both checks abort before any SQL is produced. -/
theorem insert_missing_target_or_payload (d : insertData) :
    (d.Into = "" → insertData.ToSql d = .error "insert statements must specify a table")
    ∧ (d.Into ≠ "" → d.Values = [] → d.Select = none →
       insertData.ToSql d
         = .error "insert statements must have at least one set of values or select clause") := by
  constructor
  · intro h
    have hlen : d.Into.length = 0 := (string_length_zero_iff d.Into).mpr h
    simp [insertData.ToSql, hlen]
  · intro h1 h2 h3
    have hlen : ¬ d.Into.length = 0 := fun hc => h1 ((string_length_zero_iff d.Into).mp hc)
    simp [insertData.ToSql, hlen, h2, h3]

/-- C7 witness: both failure modes at concrete snapshots. -/
theorem insert_missing_target_or_payload_witness :
    insertData.ToSql { insQ with Into := "" }
      = .error "insert statements must specify a table"
    ∧ insertData.ToSql { insQ with Values := [] }
      = .error "insert statements must have at least one set of values or select clause" :=
  ⟨(insert_missing_target_or_payload _).1 rfl,
   (insert_missing_target_or_payload _).2 (by decide) rfl rfl⟩

/-- C8: when a sub-select is configured, the values set is ignored entirely
(rendering is unchanged under any replacement of `Values`), the output is the
head of the INSERT followed by the sub-select's SQL with the sub-select's
arguments appended, and no error is signalled when the sub-select renders. -/
theorem insert_subselect_precedence (d : insertData) (sb : selectData)
    (hsel : d.Select = some sb) (hinto : d.Into ≠ "") :
    (∀ vs, insertData.ToSql { d with Values := vs } = insertData.ToSql d)
    ∧ (∀ s a, selectData.ToSql sb = .ok (s, a) →
        insertData.ToSql d
          = insertFinish d (insertHead d ++ s, (prefixAcc d.Prefixes).2 ++ a))
    ∧ (∀ s a, selectData.ToSql sb = .ok (s, a) → (insertData.ToSql d).isOk = true) := by
  have hlen : ¬ d.Into.length = 0 := fun hc => hinto ((string_length_zero_iff d.Into).mp hc)
  obtain ⟨ipf, ipre, iopts, iinto, icols, ivals, isufs, isel⟩ := d
  simp only at hsel
  subst hsel
  simp only at hlen
  refine ⟨fun vs => ?_, fun s a hs => ?_, fun s a hs => ?_⟩
  · simp [insertData.ToSql, hlen]
    rfl
  · simp [insertData.ToSql, hlen, appendSelectToSQL, hs, insertHead]
  · simp only [insertData.ToSql, appendSelectToSQL, hs]
    simp [hlen, insertFinish]
    cases ipf <;>
      simp [PlaceholderFormat.ReplacePlaceholders, Except.isOk, Except.toBool, Except.bind]

/-- C8 witness: a concrete INSERT with both a values row and a sub-select
renders independently of the values set and successfully. -/
theorem insert_subselect_precedence_witness :
    insertData.ToSql { { insQ with Select := some selQ } with Values := [[Val.plain (Arg.int 9)]] }
      = insertData.ToSql { insQ with Select := some selQ }
    ∧ (insertData.ToSql { insQ with Select := some selQ }).isOk = true :=
  ⟨(insert_subselect_precedence { insQ with Select := some selQ } selQ rfl (by decide)).1
      [[Val.plain (Arg.int 9)]],
   (insert_subselect_precedence { insQ with Select := some selQ } selQ rfl (by decide)).2.2
      "SELECT a" [] rfl⟩

/-- C9: the wrapped-predicate render dispatch — nil renders as empty text
with no arguments, a string renders as itself with the trailing arguments, a
fragment delegates to its own render, and any other dynamic type fails fast
with the invalid-predicate-type error instead of being stringified. -/
theorem part_render_dispatch (a : List Arg) (s t : String) (sq : Sqlizer) :
    part.ToSql Pred.nil a = .ok ("", [])
    ∧ part.ToSql (Pred.str s) a = .ok (s, a)
    ∧ part.ToSql (Pred.sqlizer sq) a = Sqlizer.ToSql sq
    ∧ part.ToSql (Pred.other t) a = .error ("expected string or Sqlizer, not " ++ t) :=
  ⟨rfl, rfl, rfl, rfl⟩

/-- The SQL text a row value contributes on the VALUES path: an `expr` is
inlined verbatim, anything else becomes a "?" placeholder. -/
def valText : Val → String
  | .ex s _ => s
  | .plain _ => "?"

/-- The arguments a row value contributes on the VALUES path: an `expr`'s own
argument list, or the plain value itself. -/
def valArgs : Val → List Arg
  | .ex _ a => a
  | .plain a => [a]

theorem rowStrings_eq (row : List Val) :
    ∀ args, rowStrings row args = (row.map valText, args ++ row.flatMap valArgs) := by
  induction row with
  | nil => intro args; simp [rowStrings]
  | cons v rest ih =>
    intro args
    cases v <;> simp [rowStrings, valText, valArgs, ih]

theorem valuesStrings_eq (vals : List (List Val)) :
    ∀ args, valuesStrings vals args
      = (vals.map (fun row => "(" ++ joinSep (row.map valText) "," ++ ")"),
         args ++ vals.flatMap (fun row => row.flatMap valArgs)) := by
  induction vals with
  | nil => intro args; simp [valuesStrings]
  | cons row rest ih =>
    intro args
    simp [valuesStrings, rowStrings_eq, ih]

/-- C10: on the VALUES path each `expr` value is inlined verbatim as its own
SQL text with its arguments appended at that position, every other value
contributes exactly one "?" placeholder and itself as the next argument, and
rows render in order as parenthesized comma-joined groups joined by commas. -/
theorem insert_values_path_rendering (values : List (List Val)) (acc : String)
    (args : List Arg) (h : values ≠ []) :
    appendValuesToSQL values acc args
      = .ok (acc ++ "VALUES "
            ++ joinSep (values.map fun row => "(" ++ joinSep (row.map valText) "," ++ ")") ",",
          args ++ values.flatMap fun row => row.flatMap valArgs) := by
  have hlen : ¬ values.length = 0 := by simpa [List.length_eq_zero] using h
  simp [appendValuesToSQL, hlen, valuesStrings_eq]

/-- C10 witness: rows [(1, now() with arg 5), (2)] render to
"VALUES (?,now()),(?)" with arguments [1, 5, 2] in position order. -/
theorem insert_values_path_rendering_witness :
    appendValuesToSQL [[Val.plain (Arg.int 1), Val.ex "now()" [Arg.int 5]], [Val.plain (Arg.int 2)]]
      "" [] = .ok ("VALUES (?,now()),(?)", [Arg.int 1, Arg.int 5, Arg.int 2]) := by
  have h := insert_values_path_rendering
    [[Val.plain (Arg.int 1), Val.ex "now()" [Arg.int 5]], [Val.plain (Arg.int 2)]] "" [] (by decide)
  exact h.trans (by rfl)

end Squirrel
